import Mathlib

/-!
Verification of the `recomp` scaffolding CLI (`src/bin/recomp.js`).

JS strings are embedded as lists of UTF-16 code units (`List Nat`); all
inputs of interest are ASCII, for which `Char.toNat` of the Lean literal
gives exactly the JS code unit.  The filesystem is embedded as a partial
map from paths to entries, and each generator is a pure function from its
arguments and the filesystem to a `RunResult` describing what the process
would do (help text, an error exit, or an ordered sequence of created
outputs).
-/

namespace Recomp

/-- The UTF-16 code units of an ASCII string literal: the embedding of a
JS string constant. -/
def codes (s : String) : List Nat := s.data.map Char.toNat

/-- JS `String.prototype.toUpperCase` on a single ASCII code unit (the
only case the templates exercise): lower-case letters are shifted to
upper case, everything else is unchanged. -/
def charUpper (c : Nat) : Nat := if 97 ≤ c ∧ c ≤ 122 then c - 32 else c

/-- Per-word step of `kebabToPascalCase` (recomp.js line 20), JS
charAt(0).toUpperCase() + slice(1): upper-case the first code unit and
keep the rest; on the empty word both pieces are empty, so the result
is empty. -/
def capitalizeWord : List Nat → List Nat
  | [] => []
  | c :: rest => charUpper c :: rest

/-- JS split of a string on the hyphen (code unit 45): the split of an
empty string is a list holding one empty word, and each hyphen starts
a new (possibly empty) word. -/
def splitOnDash : List Nat → List (List Nat)
  | [] => [[]]
  | c :: rest =>
    let r := splitOnDash rest
    if c = 45 then [] :: r else (c :: r.headI) :: r.tail

/-- The function `kebabToPascalCase` (recomp.js lines 16-22): empty input maps to
empty output, otherwise split on hyphens, capitalize each word, and
concatenate. -/
def kebabToPascalCase (str : List Nat) : List Nat :=
  if str = [] then [] else ((splitOnDash str).map capitalizeWord).flatten

/-- The resolved flag set built in `main` (recomp.js lines 337-341). -/
structure Options where
  createTypes : Bool
  createCss : Bool
  createIndex : Bool
deriving DecidableEq, Repr

/-- One observable filesystem effect of a run: `fs.mkdirSync` of a
directory, or `fs.writeFileSync` of a file with its full text. -/
inductive Output where
  | dir : List Nat → Output
  | file : List Nat → List Nat → Output
deriving DecidableEq, Repr

/-- The path a single output touches. -/
def outputPath : Output → List Nat
  | .dir p => p
  | .file p _ => p

/-- What a path holds in the embedded filesystem. -/
inductive FsEntry where
  | directory : FsEntry
  | fileWith : List Nat → FsEntry
deriving DecidableEq, Repr

/-- The embedded filesystem: a partial map from paths to entries.
`fs.existsSync p` is `(fs p).isSome`. -/
def Fs : Type := List Nat → Option FsEntry

/-- The filesystem in which nothing exists. -/
def emptyFs : Fs := fun _ => none

/-- Perform one output on the filesystem. -/
def applyOutput (fs : Fs) : Output → Fs
  | .dir p => fun q => if q = p then some .directory else fs q
  | .file p c => fun q => if q = p then some (.fileWith c) else fs q

/-- The observable outcome of one process invocation. -/
inductive RunResult where
  | helpShown : RunResult
  | usageError : RunResult
  | alreadyExists : List Nat → RunResult
  | generated : List Output → RunResult
deriving DecidableEq, Repr

/-- Process exit code of an outcome: 0 for help or success, 1 for every
error path (recomp.js lines 71, 79, 324, 356). -/
def exitCode : RunResult → Nat
  | .usageError => 1
  | .alreadyExists _ => 1
  | .helpShown => 0
  | .generated _ => 0

/-- Perform every output of a run on the filesystem; error outcomes
touch nothing. -/
def applyRun (fs : Fs) : RunResult → Fs
  | .generated outs => outs.foldl applyOutput fs
  | _ => fs

/-- JS path.join(a, b) as used here: the two segments joined by a
separator (platform normalization is irrelevant to the properties
below, which never compare joined paths with unjoined ones). -/
def pathJoin (a b : List Nat) : List Nat := a ++ codes "/" ++ b

/- ### Component generator (recomp.js lines 67-134) -/

/-- The unconditional first line of the component barrel (line 88),
re-exporting the default of the main module. -/
def componentMainExportLine (componentName : List Nat) : List Nat :=
  codes "export \x7b default \x7d from \x27./" ++ componentName ++ codes "\x27;\n"

/-- The stylesheet re-export line of the component barrel (line 90). -/
def componentCssExportLine (componentName : List Nat) : List Nat :=
  codes "export \x7b default as " ++ componentName ++
    codes "Styles \x7d from \x27./" ++ componentName ++ codes ".module.css\x27;\n"

/-- The types re-export line of the component barrel (line 93). -/
def componentTypesExportLine (componentName : List Nat) : List Nat :=
  codes "export * from \x27./" ++ componentName ++ codes ".types\x27;\n"

/-- The lines the component barrel is assembled from, in order
(lines 88-94): main export always, stylesheet export iff `createCss`,
types re-export iff `createTypes`. -/
def componentIndexLines (componentName : List Nat) (options : Options) : List (List Nat) :=
  [componentMainExportLine componentName]
    ++ (if options.createCss then [componentCssExportLine componentName] else [])
    ++ (if options.createTypes then [componentTypesExportLine componentName] else [])

/-- The text of the component `index.ts`, by the same string
concatenation the source performs with `+=`. -/
def componentIndexContent (componentName : List Nat) (options : Options) : List Nat :=
  componentMainExportLine componentName
    ++ (if options.createCss then componentCssExportLine componentName else [])
    ++ (if options.createTypes then componentTypesExportLine componentName else [])

/-- The stylesheet template (line 101). -/
def componentCssContent : List Nat :=
  codes ".root \x7b\n  /* Add your styles here */\n\x7d\n"

/-- The `{Name}.types.ts` template (line 108). -/
def componentTypesContent (componentName : List Nat) : List Nat :=
  codes "export interface " ++ componentName ++
    codes "Props \x7b\n  // Define your component\x27s props here\n\x7d\n"

/-- The `{Name}.tsx` template (lines 114-130), with the conditional
stylesheet import, conditional types import, and the inline empty props
type `\x7b\x7d` when `createTypes` is off. -/
def componentTsxContent (componentName : List Nat) (options : Options) : List Nat :=
  let cssImport := if options.createCss then
      codes "import styles from \x27./" ++ componentName ++ codes ".module.css\x27;\n"
    else []
  let typesImport := if options.createTypes then
      codes "import type \x7b " ++ componentName ++ codes "Props \x7d from \x27./" ++
        componentName ++ codes ".types\x27;\n"
    else []
  let propsUsage := if options.createTypes then
      codes "props: " ++ componentName ++ codes "Props"
    else []
  let classNameAttr := if options.createCss then codes "className=\x7bstyles.root\x7d" else []
  codes "import React from \x27react\x27;\n"
    ++ cssImport ++ typesImport
    ++ codes "\nconst " ++ componentName ++ codes ": React.FC<"
    ++ (if options.createTypes then componentName ++ codes "Props" else codes "\x7b\x7d")
    ++ codes "> = (" ++ propsUsage
    ++ codes ") => \x7b\n  return (\n    <div " ++ classNameAttr
    ++ codes ">\n      <h1>" ++ componentName
    ++ codes "</h1>\n    </div>\n  );\n\x7d;\n\nexport default " ++ componentName
    ++ codes ";\n"

/-- The ordered outputs of a successful component run (lines 83-131):
the directory, then `index.ts` if selected, then the stylesheet if
selected, then the types file if selected, then the main `.tsx` file. -/
def componentOutputs (componentDir componentName : List Nat) (options : Options) :
    List Output :=
  [Output.dir componentDir]
    ++ (if options.createIndex then
          [Output.file (pathJoin componentDir (codes "index.ts"))
            (componentIndexContent componentName options)]
        else [])
    ++ (if options.createCss then
          [Output.file (pathJoin componentDir (componentName ++ codes ".module.css"))
            componentCssContent]
        else [])
    ++ (if options.createTypes then
          [Output.file (pathJoin componentDir (componentName ++ codes ".types.ts"))
            (componentTypesContent componentName)]
        else [])
    ++ [Output.file (pathJoin componentDir (componentName ++ codes ".tsx"))
          (componentTsxContent componentName options)]

/-- The function `generateComponent` (lines 67-134): a missing or empty name is a
usage error before anything else; an existing target directory is an
error before any write; otherwise the ordered outputs are produced. -/
def generateComponent (kebabName? : Option (List Nat)) (srcDir? : Option (List Nat))
    (options : Options) (fs : Fs) : RunResult :=
  let kebabName := kebabName?.getD []
  if kebabName = [] then .usageError
  else
    let srcDir := srcDir?.getD (codes "./src/components")
    let componentName := kebabToPascalCase kebabName
    let componentDir := pathJoin srcDir componentName
    if (fs componentDir).isSome then .alreadyExists componentDir
    else .generated (componentOutputs componentDir componentName options)

/- ### Context generator (recomp.js lines 137-229) -/

/-- The unconditional first line of the context barrel (line 159). -/
def contextMainExportLine (contextDirName : List Nat) : List Nat :=
  codes "export * from \x27./" ++ contextDirName ++ codes "\x27;\n"

/-- The types re-export line of the context barrel (line 161). -/
def contextTypesExportLine (contextDirName : List Nat) : List Nat :=
  codes "export * from \x27./" ++ contextDirName ++ codes ".types\x27;\n"

/-- The lines of the context `index.ts`, in order (lines 159-162). -/
def contextIndexLines (contextDirName : List Nat) (options : Options) : List (List Nat) :=
  [contextMainExportLine contextDirName]
    ++ (if options.createTypes then [contextTypesExportLine contextDirName] else [])

/-- The text of the context `index.ts` (lines 159-162). -/
def contextIndexContent (contextDirName : List Nat) (options : Options) : List Nat :=
  contextMainExportLine contextDirName
    ++ (if options.createTypes then contextTypesExportLine contextDirName else [])

/-- The `{Name}Context.types.ts` template (lines 169-178). -/
def contextTypesContent (contextBaseName : List Nat) : List Nat :=
  codes "// The main data structure for the context\x27s state\nexport interface " ++
    contextBaseName ++
    codes "State \x7b\n  // TODO: Define your state properties here\n\x7d\n\n" ++
    codes "// The complete context value, including state and actions\nexport interface " ++
    contextBaseName ++ codes "ContextType extends " ++ contextBaseName ++
    codes "State \x7b\n  // TODO: Define your context actions here\n\x7d\n"

/-- The `{Name}Context.tsx` template (lines 184-225), with the types
either imported from the types file or declared inline. -/
def contextTsxContent (contextBaseName contextDirName : List Nat) (options : Options) :
    List Nat :=
  let typesImport := if options.createTypes then
      codes "import type \x7b " ++ contextBaseName ++ codes "ContextType, " ++
        contextBaseName ++ codes "State \x7d from \x27./" ++ contextDirName ++
        codes ".types\x27;\n"
    else []
  let inlineTypes := if !options.createTypes then
      codes "export interface " ++ contextBaseName ++
        codes "State \x7b\n  // TODO: Define your state properties here\n\x7d\n\n" ++
        codes "export interface " ++ contextBaseName ++ codes "ContextType extends " ++
        contextBaseName ++ codes "State \x7b\n  // TODO: Define your context actions here\n\x7d\n\n"
    else []
  codes "import React, \x7b createContext, useContext, useState \x7d from \x27react\x27;\n"
    ++ typesImport ++ codes "\n" ++ inlineTypes
    ++ codes "// Create the context with a default undefined value\nconst "
    ++ contextBaseName ++ codes "Context = createContext<" ++ contextBaseName
    ++ codes "ContextType | undefined>(undefined);\n\nconst initialState: "
    ++ contextBaseName ++ codes "State = \x7b\n  // TODO: Set initial values for your state here\n\x7d;\n\ninterface "
    ++ contextBaseName ++ codes "ProviderProps \x7b\n  children: React.ReactNode;\n\x7d\n\nexport const "
    ++ contextBaseName ++ codes "Provider: React.FC<" ++ contextBaseName
    ++ codes "ProviderProps> = (\x7b children \x7d) => \x7b\n  const [state, setState] = useState<"
    ++ contextBaseName ++ codes "State>(initialState);\n\n  const contextValue: "
    ++ contextBaseName ++ codes "ContextType = \x7b\n    ...state,\n  \x7d;\n\n  return (\n    <"
    ++ contextBaseName ++ codes "Context.Provider value=\x7bcontextValue\x7d>\n      \x7bchildren\x7d\n    </"
    ++ contextBaseName ++ codes "Context.Provider>\n  );\n\x7d;\n\nexport const use"
    ++ contextBaseName ++ codes " = (): " ++ contextBaseName
    ++ codes "ContextType => \x7b\n  const context = useContext(" ++ contextBaseName
    ++ codes "Context);\n  if (context === undefined) \x7b\n    throw new Error(\x27use"
    ++ contextBaseName ++ codes " must be used within a " ++ contextBaseName
    ++ codes "Provider\x27);\n  \x7d\n  return context;\n\x7d;\n"

/-- The ordered outputs of a successful context run (lines 153-227):
the directory, then `index.ts` if selected, then the types file if
selected, then the main `.tsx` file. -/
def contextOutputs (contextDir contextBaseName contextDirName : List Nat)
    (options : Options) : List Output :=
  [Output.dir contextDir]
    ++ (if options.createIndex then
          [Output.file (pathJoin contextDir (codes "index.ts"))
            (contextIndexContent contextDirName options)]
        else [])
    ++ (if options.createTypes then
          [Output.file (pathJoin contextDir (contextDirName ++ codes ".types.ts"))
            (contextTypesContent contextBaseName)]
        else [])
    ++ [Output.file (pathJoin contextDir (contextDirName ++ codes ".tsx"))
          (contextTsxContent contextBaseName contextDirName options)]

/-- The function `generateContext` (lines 137-229). -/
def generateContext (kebabName? : Option (List Nat)) (srcDir? : Option (List Nat))
    (options : Options) (fs : Fs) : RunResult :=
  let kebabName := kebabName?.getD []
  if kebabName = [] then .usageError
  else
    let srcDir := srcDir?.getD (codes "./src/contexts")
    let contextBaseName := kebabToPascalCase kebabName
    let contextDirName := contextBaseName ++ codes "Context"
    let contextDir := pathJoin srcDir contextDirName
    if (fs contextDir).isSome then .alreadyExists contextDir
    else .generated (contextOutputs contextDir contextBaseName contextDirName options)

/- ### Hook generator (recomp.js lines 232-305) -/

/-- Ternary at line 240 of recomp.js: when kebabName starts with the
four-character literal use- the result is kebabName.substring(4),
otherwise kebabName unchanged. -/
def hookBaseName (kebabName : List Nat) : List Nat :=
  if kebabName.take 4 = codes "use-" then kebabName.drop 4 else kebabName

/-- The exported hook name `use` + PascalCase of the stripped base name
(lines 240-243). -/
def hookName (kebabName : List Nat) : List Nat :=
  codes "use" ++ kebabToPascalCase (hookBaseName kebabName)

/-- The hook directory name: the PascalCase base name alone (line 244). -/
def hookDirName (kebabName : List Nat) : List Nat :=
  kebabToPascalCase (hookBaseName kebabName)

/-- The unconditional first line of the hook barrel (line 258). -/
def hookMainExportLine (hName : List Nat) : List Nat :=
  codes "export * from \x27./" ++ hName ++ codes "\x27;\n"

/-- The types re-export line of the hook barrel (line 260). -/
def hookTypesExportLine (hName : List Nat) : List Nat :=
  codes "export * from \x27./" ++ hName ++ codes ".types\x27;\n"

/-- The lines of the hook `index.ts`, in order (lines 258-261). -/
def hookIndexLines (hName : List Nat) (options : Options) : List (List Nat) :=
  [hookMainExportLine hName]
    ++ (if options.createTypes then [hookTypesExportLine hName] else [])

/-- The text of the hook `index.ts` (lines 258-261). -/
def hookIndexContent (hName : List Nat) (options : Options) : List Nat :=
  hookMainExportLine hName
    ++ (if options.createTypes then hookTypesExportLine hName else [])

/-- The `use{Name}.types.ts` template (lines 268-274). -/
def hookTypesContent (hName : List Nat) : List Nat :=
  codes "// Define argument and return types for your hook\nexport interface " ++
    hName ++ codes "Options \x7b\n  // ...\n\x7d\n\nexport type " ++ hName ++
    codes "Return = void;\n"

/-- The `use{Name}.ts` template (lines 280-301), with conditional types
import, typed parameter and return annotation. -/
def hookTsContent (hName : List Nat) (options : Options) : List Nat :=
  let typesImport := if options.createTypes then
      codes "import type \x7b " ++ hName ++ codes "Options, " ++ hName ++
        codes "Return \x7d from \x27./" ++ hName ++ codes ".types\x27;\n"
    else []
  let propsUsage := if options.createTypes then
      codes "options: " ++ hName ++ codes "Options"
    else []
  let returnType := if options.createTypes then codes ": " ++ hName ++ codes "Return" else []
  codes "import \x7b useState, useEffect \x7d from \x27react\x27;\n"
    ++ typesImport
    ++ codes "\nexport const " ++ hName ++ codes " = (" ++ propsUsage ++ codes ")"
    ++ returnType
    ++ codes " => \x7b\n  // TODO: Implement your hook logic here\n  \n  // Example:\n  // const [value, setValue] = useState(null);\n  // useEffect(() => \x7b\n  //   // ...\n  // \x7d, []);\n\n  // return value;\n\x7d;\n\nexport default "
    ++ hName ++ codes ";\n"

/-- The ordered outputs of a successful hook run (lines 252-303):
the directory, then `index.ts` if selected, then the types file if
selected, then the main `.ts` file. -/
def hookOutputs (hookDir hName : List Nat) (options : Options) : List Output :=
  [Output.dir hookDir]
    ++ (if options.createIndex then
          [Output.file (pathJoin hookDir (codes "index.ts"))
            (hookIndexContent hName options)]
        else [])
    ++ (if options.createTypes then
          [Output.file (pathJoin hookDir (hName ++ codes ".types.ts"))
            (hookTypesContent hName)]
        else [])
    ++ [Output.file (pathJoin hookDir (hName ++ codes ".ts"))
          (hookTsContent hName options)]

/-- The function `generateHook` (lines 232-305). -/
def generateHook (kebabName? : Option (List Nat)) (srcDir? : Option (List Nat))
    (options : Options) (fs : Fs) : RunResult :=
  let kebabName := kebabName?.getD []
  if kebabName = [] then .usageError
  else
    let srcDir := srcDir?.getD (codes "./src/hooks")
    let hookDir := pathJoin srcDir (hookDirName kebabName)
    if (fs hookDir).isSome then .alreadyExists hookDir
    else .generated (hookOutputs hookDir (hookName kebabName) options)

/- ### CLI dispatcher (recomp.js lines 308-360) -/

/-- JS test arg.startsWith with a double-dash literal (line 330). -/
def startsWithDashDash (a : List Nat) : Bool := decide (a.take 2 = codes "--")

/-- The flag tokens: remainingArgs filtered to those starting with a
double dash (line 330). -/
def genFlags (remainingArgs : List (List Nat)) : List (List Nat) :=
  remainingArgs.filter startsWithDashDash

/-- The positional tokens: remainingArgs filtered to those not starting
with a double dash (line 331). -/
def genPositional (remainingArgs : List (List Nat)) : List (List Nat) :=
  remainingArgs.filter (fun a => !startsWithDashDash a)

/-- The options record built from the flag tokens (lines 336-341):
each `create*` is on unless its `--no-*` flag or `--no-all` appears. -/
def parseOptions (flags : List (List Nat)) : Options :=
  let noAll := flags.contains (codes "--no-all")
  { createTypes := !flags.contains (codes "--no-types") && !noAll
    createCss := !flags.contains (codes "--no-css") && !noAll
    createIndex := !flags.contains (codes "--no-index") && !noAll }

/-- The function `main` (lines 308-360): help short-circuit, command check, argument
split into flags and positionals, option resolution, dispatch on the
type token. -/
def mainRun (args : List (List Nat)) (fs : Fs) : RunResult :=
  if args.contains (codes "-h") || args.contains (codes "--help") then .helpShown
  else if args.head? = some (codes "gen") then
    let type := args[1]?
    let remainingArgs := args.drop 2
    let name := (genPositional remainingArgs).head?
    let directory := (genPositional remainingArgs)[1]?
    let options := parseOptions (genFlags remainingArgs)
    if type = some (codes "component") then generateComponent name directory options fs
    else if type = some (codes "context") then generateContext name directory options fs
    else if type = some (codes "hook") then generateHook name directory options fs
    else .usageError
  else .usageError

/- ### The three artifact kinds, abstracted for kind-uniform claims -/

/-- The artifact kinds the dispatcher recognizes. -/
inductive ArtifactKind where
  | component : ArtifactKind
  | context : ArtifactKind
  | hook : ArtifactKind
deriving DecidableEq, Repr

/-- The generator the dispatcher routes each kind to. -/
def generatorOf : ArtifactKind → Option (List Nat) → Option (List Nat) → Options → Fs → RunResult
  | .component => generateComponent
  | .context => generateContext
  | .hook => generateHook

/-- The default base directory of each kind (function default
parameters at lines 67, 137, 232). -/
def defaultDirOf : ArtifactKind → List Nat
  | .component => codes "./src/components"
  | .context => codes "./src/contexts"
  | .hook => codes "./src/hooks"

/-- The artifact directory name each kind derives from the raw name. -/
def artifactDirName : ArtifactKind → List Nat → List Nat
  | .component, kebab => kebabToPascalCase kebab
  | .context, kebab => kebabToPascalCase kebab ++ codes "Context"
  | .hook, kebab => hookDirName kebab

/-- The full target directory path of a run. -/
def targetDir (k : ArtifactKind) (kebabName : List Nat) (srcDir? : Option (List Nat)) :
    List Nat :=
  pathJoin (srcDir?.getD (defaultDirOf k)) (artifactDirName k kebabName)

/-- The outputs of an outcome: empty unless the run succeeded. -/
def runOutputs : RunResult → List Output
  | .generated outs => outs
  | _ => []

/-- The paths touched by the outputs of a run, in the order they are
performed. -/
def runPaths (r : RunResult) : List (List Nat) := (runOutputs r).map outputPath

/-- The paths of the plain files among some outputs (the created
directory excluded): the sibling files of a plan. -/
def filePaths (outs : List Output) : List (List Nat) :=
  outs.filterMap (fun o => match o with | .file p _ => some p | .dir _ => none)

/-- Naive substring test on code-unit lists, used to state that some
generated text does or does not contain a fragment. -/
def containsSub (pat s : List Nat) : Bool :=
  (List.range (s.length + 1)).any (fun i => decide ((s.drop i).take pat.length = pat))

/- ### Lemmas about the name transformer -/

set_option maxRecDepth 10000

theorem splitOnDash_ne_nil (s : List Nat) : splitOnDash s ≠ [] := by
  induction s with
  | nil => simp [splitOnDash]
  | cons c rest ih =>
    simp only [splitOnDash]
    by_cases hc : c = 45 <;> simp [hc]

theorem not_dash_mem_splitOnDash (s : List Nat) :
    ∀ w ∈ splitOnDash s, 45 ∉ w := by
  induction s with
  | nil =>
    intro w hw
    simp only [splitOnDash, List.mem_singleton] at hw
    simp [hw]
  | cons c rest ih =>
    intro w hw
    cases h : splitOnDash rest with
    | nil => exact absurd h (splitOnDash_ne_nil rest)
    | cons v ws =>
      simp only [splitOnDash, h, List.headI_cons, List.tail_cons] at hw
      by_cases hc : c = 45
      · rw [if_pos hc] at hw
        rcases List.mem_cons.mp hw with hw | hw
        · simp [hw]
        · exact ih w (h ▸ hw)
      · rw [if_neg hc] at hw
        rcases List.mem_cons.mp hw with hw | hw
        · subst hw
          intro hmem
          rcases List.mem_cons.mp hmem with hmem | hmem
          · exact hc hmem.symm
          · exact ih v (h ▸ List.mem_cons_self v ws) hmem
        · exact ih w (h ▸ List.mem_cons_of_mem v hw)

theorem splitOnDash_of_not_mem (s : List Nat) (h : 45 ∉ s) : splitOnDash s = [s] := by
  induction s with
  | nil => rfl
  | cons c rest ih =>
    have hc : ¬ c = 45 := fun e => h (e ▸ List.mem_cons_self c rest)
    have hr : 45 ∉ rest := fun m => h (List.mem_cons_of_mem c m)
    simp only [splitOnDash, ih hr]
    simp [hc]

theorem charUpper_idem (c : Nat) : charUpper (charUpper c) = charUpper c := by
  by_cases h : 97 ≤ c ∧ c ≤ 122
  · have h1 : charUpper c = c - 32 := by simp [charUpper, h]
    rw [h1]
    unfold charUpper
    split <;> omega
  · have h1 : charUpper c = c := by simp [charUpper, h]
    rw [h1]
    exact h1

theorem charUpper_ne_dash (c : Nat) (h : c ≠ 45) : charUpper c ≠ 45 := by
  unfold charUpper
  split <;> omega

theorem capitalizeWord_not_dash (w : List Nat) (h : 45 ∉ w) : 45 ∉ capitalizeWord w := by
  cases w with
  | nil => simp [capitalizeWord]
  | cons c r =>
    have hc : c ≠ 45 := fun e => h (e ▸ List.mem_cons_self c r)
    have hr : 45 ∉ r := fun m => h (List.mem_cons_of_mem c m)
    simp only [capitalizeWord, List.mem_cons]
    rintro (e | m)
    · exact charUpper_ne_dash c hc e.symm
    · exact hr m

theorem dash_not_mem_kebabToPascalCase (s : List Nat) : 45 ∉ kebabToPascalCase s := by
  unfold kebabToPascalCase
  split
  · simp
  · intro hmem
    rw [List.mem_flatten] at hmem
    obtain ⟨l, hl, h45⟩ := hmem
    rw [List.mem_map] at hl
    obtain ⟨w, hw, rfl⟩ := hl
    exact capitalizeWord_not_dash w (not_dash_mem_splitOnDash s w hw) h45

theorem kebabToPascalCase_of_not_dash (s : List Nat) (h : 45 ∉ s) :
    kebabToPascalCase s = capitalizeWord s := by
  unfold kebabToPascalCase
  split
  · next he => rw [he]; rfl
  · rw [splitOnDash_of_not_mem s h]; simp

theorem capitalizeWord_flatten_map (L : List (List Nat)) :
    capitalizeWord ((L.map capitalizeWord).flatten) = (L.map capitalizeWord).flatten := by
  induction L with
  | nil => rfl
  | cons w L' ih =>
    cases w with
    | nil => simpa [capitalizeWord] using ih
    | cons c r =>
      simp only [List.map_cons, List.flatten_cons, capitalizeWord, List.cons_append,
        charUpper_idem]

theorem kebabToPascalCase_idem (s : List Nat) :
    kebabToPascalCase (kebabToPascalCase s) = kebabToPascalCase s := by
  rw [kebabToPascalCase_of_not_dash _ (dash_not_mem_kebabToPascalCase s)]
  unfold kebabToPascalCase
  split
  · rfl
  · exact capitalizeWord_flatten_map _

theorem flatten_map_capitalizeWord_filter (L : List (List Nat)) :
    ((L.filter (fun w => !w.isEmpty)).map capitalizeWord).flatten =
      (L.map capitalizeWord).flatten := by
  induction L with
  | nil => rfl
  | cons w L' ih =>
    cases w with
    | nil => simpa [capitalizeWord] using ih
    | cons c r => simp [capitalizeWord, ih]

/- ### Claim theorems for the name transformer -/

/-- C8: `kebabToPascalCase` is idempotent on its own outputs — for
every raw name `r`, applying it twice equals applying it once, because
its output never contains a hyphen (code unit 45) — and it normalizes
the case of the first letter of each segment: `"foo-bar"` and
`"Foo-Bar"` both produce `"FooBar"`. -/
theorem claim_C8_pascal_idempotent_and_case_normalizing :
    (∀ r : List Nat, kebabToPascalCase (kebabToPascalCase r) = kebabToPascalCase r) ∧
    (∀ r : List Nat, 45 ∉ kebabToPascalCase r) ∧
    kebabToPascalCase (codes "foo-bar") = codes "FooBar" ∧
    kebabToPascalCase (codes "Foo-Bar") = codes "FooBar" :=
  ⟨kebabToPascalCase_idem, dash_not_mem_kebabToPascalCase, by decide, by decide⟩

/-- C10: `kebabToPascalCase` is a total function of every input string:
empty hyphen-delimited segments contribute nothing to the output (the
result always equals the one computed from the non-empty segments
alone), so `"foo--bar"`, `"-foo-bar"` and `"foo-bar-"` all map to
`"FooBar"`, and the empty string maps to the empty string. -/
theorem claim_C10_pascal_total_empty_segments_vanish :
    (∀ r : List Nat, kebabToPascalCase r =
        (((splitOnDash r).filter (fun w => !w.isEmpty)).map capitalizeWord).flatten) ∧
    kebabToPascalCase (codes "foo--bar") = codes "FooBar" ∧
    kebabToPascalCase (codes "-foo-bar") = codes "FooBar" ∧
    kebabToPascalCase (codes "foo-bar-") = codes "FooBar" ∧
    kebabToPascalCase (codes "") = codes "" := by
  refine ⟨fun r => ?_, by decide, by decide, by decide, by decide⟩
  unfold kebabToPascalCase
  split
  · next he => subst he; rfl
  · exact (flatten_map_capitalizeWord_filter _).symm

/-- C3: the hook generator strips a leading literal `"use-"` from the
raw name (case-sensitively) before PascalCase conversion and rebuilds
the exported name as `"use"` + PascalName: `"use-toggle"` and
`"toggle"` both yield hook name `"useToggle"` and directory name
`"Toggle"`; a capitalized `"Use-"` is not stripped; and in general the
hook name is `"use"` prepended to the PascalCase of the stripped name. -/
theorem claim_C3_hook_use_dash_stripping :
    hookName (codes "use-toggle") = codes "useToggle" ∧
    hookName (codes "toggle") = codes "useToggle" ∧
    hookDirName (codes "use-toggle") = codes "Toggle" ∧
    hookDirName (codes "toggle") = codes "Toggle" ∧
    hookBaseName (codes "use-toggle") = codes "toggle" ∧
    hookBaseName (codes "Use-toggle") = codes "Use-toggle" ∧
    (∀ k : List Nat, hookName k = codes "use" ++ kebabToPascalCase (hookBaseName k)) :=
  ⟨by decide, by decide, by decide, by decide, by decide, by decide, fun k => rfl⟩

/- ### Output-order lemmas -/

theorem componentOutputs_paths (D N : List Nat) (o : Options) :
    (componentOutputs D N o).map outputPath =
      [D] ++ (if o.createIndex then [pathJoin D (codes "index.ts")] else [])
        ++ (if o.createCss then [pathJoin D (N ++ codes ".module.css")] else [])
        ++ (if o.createTypes then [pathJoin D (N ++ codes ".types.ts")] else [])
        ++ [pathJoin D (N ++ codes ".tsx")] := by
  by_cases h1 : o.createIndex <;> by_cases h2 : o.createCss <;> by_cases h3 : o.createTypes <;>
    simp [componentOutputs, h1, h2, h3, outputPath]

theorem contextOutputs_paths (D B DN : List Nat) (o : Options) :
    (contextOutputs D B DN o).map outputPath =
      [D] ++ (if o.createIndex then [pathJoin D (codes "index.ts")] else [])
        ++ (if o.createTypes then [pathJoin D (DN ++ codes ".types.ts")] else [])
        ++ [pathJoin D (DN ++ codes ".tsx")] := by
  by_cases h1 : o.createIndex <;> by_cases h3 : o.createTypes <;>
    simp [contextOutputs, h1, h3, outputPath]

theorem hookOutputs_paths (D H : List Nat) (o : Options) :
    (hookOutputs D H o).map outputPath =
      [D] ++ (if o.createIndex then [pathJoin D (codes "index.ts")] else [])
        ++ (if o.createTypes then [pathJoin D (H ++ codes ".types.ts")] else [])
        ++ [pathJoin D (H ++ codes ".ts")] := by
  by_cases h1 : o.createIndex <;> by_cases h3 : o.createTypes <;>
    simp [hookOutputs, h1, h3, outputPath]

/- ### Inversion lemmas for successful runs -/

theorem generateComponent_generated (n : List Nat) (d? : Option (List Nat)) (o : Options)
    (fs : Fs) (outs : List Output)
    (h : generateComponent (some n) d? o fs = .generated outs) :
    outs = componentOutputs
      (pathJoin (d?.getD (codes "./src/components")) (kebabToPascalCase n))
      (kebabToPascalCase n) o := by
  simp only [generateComponent, Option.getD_some] at h
  split at h
  · exact RunResult.noConfusion h
  · split at h
    · exact RunResult.noConfusion h
    · injection h with h
      exact h.symm

theorem generateContext_generated (n : List Nat) (d? : Option (List Nat)) (o : Options)
    (fs : Fs) (outs : List Output)
    (h : generateContext (some n) d? o fs = .generated outs) :
    outs = contextOutputs
      (pathJoin (d?.getD (codes "./src/contexts")) (kebabToPascalCase n ++ codes "Context"))
      (kebabToPascalCase n) (kebabToPascalCase n ++ codes "Context") o := by
  simp only [generateContext, Option.getD_some] at h
  split at h
  · exact RunResult.noConfusion h
  · split at h
    · exact RunResult.noConfusion h
    · injection h with h
      exact h.symm

theorem generateHook_generated (n : List Nat) (d? : Option (List Nat)) (o : Options)
    (fs : Fs) (outs : List Output)
    (h : generateHook (some n) d? o fs = .generated outs) :
    outs = hookOutputs (pathJoin (d?.getD (codes "./src/hooks")) (hookDirName n))
      (hookName n) o := by
  simp only [generateHook, Option.getD_some] at h
  split at h
  · exact RunResult.noConfusion h
  · split at h
    · exact RunResult.noConfusion h
    · injection h with h
      exact h.symm

/- ### C2: order of the generated outputs -/

/-- C2 counterexample: with every optional file selected, the component
generator does not produce the order claimed by the spec (directory,
index, types, stylesheet, main); the stylesheet file is created before
the types file. -/
theorem claim_C2_counterexample :
    runPaths (generateComponent (some (codes "foo-bar")) none ⟨true, true, true⟩ emptyFs) ≠
      [codes "./src/components/FooBar",
       codes "./src/components/FooBar/index.ts",
       codes "./src/components/FooBar/FooBar.types.ts",
       codes "./src/components/FooBar/FooBar.module.css",
       codes "./src/components/FooBar/FooBar.tsx"] := by decide

/-- C2 (amended): every successful generation run produces its outputs
as a deterministic ordered sequence — the directory first, then the
index file, then (components only) the stylesheet file, then the
type-definitions file, then the main source file; each optional entry
present exactly when selected. -/
theorem claim_C2_generation_order :
    (∀ (n : List Nat) (d? : Option (List Nat)) (o : Options) (fs : Fs) (outs : List Output),
      generateComponent (some n) d? o fs = .generated outs →
      outs.map outputPath =
        [pathJoin (d?.getD (codes "./src/components")) (kebabToPascalCase n)]
          ++ (if o.createIndex then
                [pathJoin (pathJoin (d?.getD (codes "./src/components")) (kebabToPascalCase n))
                  (codes "index.ts")] else [])
          ++ (if o.createCss then
                [pathJoin (pathJoin (d?.getD (codes "./src/components")) (kebabToPascalCase n))
                  (kebabToPascalCase n ++ codes ".module.css")] else [])
          ++ (if o.createTypes then
                [pathJoin (pathJoin (d?.getD (codes "./src/components")) (kebabToPascalCase n))
                  (kebabToPascalCase n ++ codes ".types.ts")] else [])
          ++ [pathJoin (pathJoin (d?.getD (codes "./src/components")) (kebabToPascalCase n))
                (kebabToPascalCase n ++ codes ".tsx")]) ∧
    (∀ (n : List Nat) (d? : Option (List Nat)) (o : Options) (fs : Fs) (outs : List Output),
      generateContext (some n) d? o fs = .generated outs →
      outs.map outputPath =
        [targetDir .context n d?]
          ++ (if o.createIndex then [pathJoin (targetDir .context n d?) (codes "index.ts")]
              else [])
          ++ (if o.createTypes then
                [pathJoin (targetDir .context n d?)
                  (kebabToPascalCase n ++ codes "Context" ++ codes ".types.ts")] else [])
          ++ [pathJoin (targetDir .context n d?)
                (kebabToPascalCase n ++ codes "Context" ++ codes ".tsx")]) ∧
    (∀ (n : List Nat) (d? : Option (List Nat)) (o : Options) (fs : Fs) (outs : List Output),
      generateHook (some n) d? o fs = .generated outs →
      outs.map outputPath =
        [targetDir .hook n d?]
          ++ (if o.createIndex then [pathJoin (targetDir .hook n d?) (codes "index.ts")]
              else [])
          ++ (if o.createTypes then
                [pathJoin (targetDir .hook n d?) (hookName n ++ codes ".types.ts")] else [])
          ++ [pathJoin (targetDir .hook n d?) (hookName n ++ codes ".ts")]) := by
  refine ⟨fun n d? o fs outs h => ?_, fun n d? o fs outs h => ?_, fun n d? o fs outs h => ?_⟩
  · rw [generateComponent_generated n d? o fs outs h, componentOutputs_paths]
  · rw [generateContext_generated n d? o fs outs h, contextOutputs_paths]
    rfl
  · rw [generateHook_generated n d? o fs outs h, hookOutputs_paths]
    rfl

/-- C2 witness: the amended order theorem applied to a concrete
successful component run. -/
theorem claim_C2_generation_order_witness :
    (generateComponent (some (codes "foo-bar")) none ⟨true, true, true⟩ emptyFs = .generated
        (componentOutputs (codes "./src/components/FooBar") (codes "FooBar")
          ⟨true, true, true⟩)) ∧
    (componentOutputs (codes "./src/components/FooBar") (codes "FooBar")
        ⟨true, true, true⟩).map outputPath =
      [codes "./src/components/FooBar",
       codes "./src/components/FooBar/index.ts",
       codes "./src/components/FooBar/FooBar.module.css",
       codes "./src/components/FooBar/FooBar.types.ts",
       codes "./src/components/FooBar/FooBar.tsx"] := by
  constructor
  · decide
  · have h := claim_C2_generation_order.1 (codes "foo-bar") none ⟨true, true, true⟩ emptyFs
      (componentOutputs (codes "./src/components/FooBar") (codes "FooBar") ⟨true, true, true⟩)
      (by decide)
    rw [h]
    decide

/- ### Distinctness of barrel lines and of sibling file names -/

theorem componentCssExportLine_ne_main (N : List Nat) :
    componentCssExportLine N ≠ componentMainExportLine N := by
  intro h
  rw [componentCssExportLine, componentMainExportLine,
    (by decide : codes "export \x7b default as " =
      codes "export \x7b default " ++ codes "as "),
    (by decide : codes "export \x7b default \x7d from \x27./" =
      codes "export \x7b default " ++ codes "\x7d from \x27./")] at h
  simp only [List.append_assoc] at h
  have h2 := List.append_cancel_left h
  rw [(by decide : codes "as " = 97 :: codes "s "),
    (by decide : codes "\x7d from \x27./" = 125 :: codes " from \x27./"),
    List.cons_append, List.cons_append] at h2
  exact absurd h2 (by simp)

theorem componentCssExportLine_ne_types (N : List Nat) :
    componentCssExportLine N ≠ componentTypesExportLine N := by
  intro h
  rw [componentCssExportLine, componentTypesExportLine,
    (by decide : codes "export \x7b default as " = codes "export " ++ codes "\x7b default as "),
    (by decide : codes "export * from \x27./" = codes "export " ++ codes "* from \x27./")] at h
  simp only [List.append_assoc] at h
  have h2 := List.append_cancel_left h
  rw [(by decide : codes "\x7b default as " = 123 :: codes " default as "),
    (by decide : codes "* from \x27./" = 42 :: codes " from \x27./"),
    List.cons_append, List.cons_append] at h2
  exact absurd h2 (by simp)

theorem componentTypesExportLine_ne_main (N : List Nat) :
    componentTypesExportLine N ≠ componentMainExportLine N := by
  intro h
  rw [componentTypesExportLine, componentMainExportLine,
    (by decide : codes "export * from \x27./" = codes "export " ++ codes "* from \x27./"),
    (by decide : codes "export \x7b default \x7d from \x27./" =
      codes "export " ++ codes "\x7b default \x7d from \x27./")] at h
  simp only [List.append_assoc] at h
  have h2 := List.append_cancel_left h
  rw [(by decide : codes "* from \x27./" = 42 :: codes " from \x27./"),
    (by decide : codes "\x7b default \x7d from \x27./" = 123 :: codes " default \x7d from \x27./"),
    List.cons_append, List.cons_append] at h2
  exact absurd h2 (by simp)

theorem starTypesExportLine_ne_main (D : List Nat) :
    codes "export * from \x27./" ++ D ++ codes ".types\x27;\n" ≠
      codes "export * from \x27./" ++ D ++ codes "\x27;\n" := by
  intro h
  have h2 := List.append_cancel_left (List.append_cancel_left
    (by simpa [List.append_assoc] using h :
      codes "export * from \x27./" ++ (D ++ codes ".types\x27;\n") =
        codes "export * from \x27./" ++ (D ++ codes "\x27;\n")))
  exact absurd h2 (by decide)

theorem pathJoin_right_inj (D a b : List Nat) (h : pathJoin D a = pathJoin D b) : a = b :=
  List.append_cancel_left h

theorem cssSuffix_ne_index (N : List Nat) :
    N ++ codes ".module.css" ≠ codes "index.ts" := by
  intro h
  have hl := congrArg List.length h
  rw [List.length_append,
    (by decide : (codes ".module.css").length = 11),
    (by decide : (codes "index.ts").length = 8)] at hl
  omega

theorem typesSuffix_ne_index (N : List Nat) :
    N ++ codes ".types.ts" ≠ codes "index.ts" := by
  intro h
  have hl := congrArg List.length h
  rw [List.length_append,
    (by decide : (codes ".types.ts").length = 9),
    (by decide : (codes "index.ts").length = 8)] at hl
  omega

theorem cssSuffix_ne_typesSuffix (N : List Nat) :
    N ++ codes ".module.css" ≠ N ++ codes ".types.ts" :=
  fun h => absurd (List.append_cancel_left h) (by decide)

theorem cssSuffix_ne_tsxSuffix (N : List Nat) :
    N ++ codes ".module.css" ≠ N ++ codes ".tsx" :=
  fun h => absurd (List.append_cancel_left h) (by decide)

theorem typesSuffix_ne_tsxSuffix (N : List Nat) :
    N ++ codes ".types.ts" ≠ N ++ codes ".tsx" :=
  fun h => absurd (List.append_cancel_left h) (by decide)

theorem typesSuffix_ne_tsSuffix (N : List Nat) :
    N ++ codes ".types.ts" ≠ N ++ codes ".ts" :=
  fun h => absurd (List.append_cancel_left h) (by decide)

/- ### Barrel consistency, per generator -/

theorem component_barrel_consistency (N D : List Nat) (o : Options)
    (hIdx : o.createIndex = true) :
    Output.file (pathJoin D (codes "index.ts")) (componentIndexContent N o)
        ∈ componentOutputs D N o ∧
    componentIndexContent N o = (componentIndexLines N o).flatten ∧
    componentMainExportLine N ∈ componentIndexLines N o ∧
    pathJoin D (N ++ codes ".tsx") ∈ filePaths (componentOutputs D N o) ∧
    (componentCssExportLine N ∈ componentIndexLines N o ↔
      pathJoin D (N ++ codes ".module.css") ∈ filePaths (componentOutputs D N o)) ∧
    (componentTypesExportLine N ∈ componentIndexLines N o ↔
      pathJoin D (N ++ codes ".types.ts") ∈ filePaths (componentOutputs D N o)) ∧
    (∀ l ∈ componentIndexLines N o,
      l = componentMainExportLine N ∨ l = componentCssExportLine N ∨
        l = componentTypesExportLine N) := by
  have p1 : pathJoin D (N ++ codes ".module.css") ≠ pathJoin D (codes "index.ts") :=
    fun h => cssSuffix_ne_index N (pathJoin_right_inj D _ _ h)
  have p2 : pathJoin D (N ++ codes ".module.css") ≠ pathJoin D (N ++ codes ".types.ts") :=
    fun h => cssSuffix_ne_typesSuffix N (pathJoin_right_inj D _ _ h)
  have p3 : pathJoin D (N ++ codes ".module.css") ≠ pathJoin D (N ++ codes ".tsx") :=
    fun h => cssSuffix_ne_tsxSuffix N (pathJoin_right_inj D _ _ h)
  have p4 : pathJoin D (N ++ codes ".types.ts") ≠ pathJoin D (codes "index.ts") :=
    fun h => typesSuffix_ne_index N (pathJoin_right_inj D _ _ h)
  have p5 : pathJoin D (N ++ codes ".types.ts") ≠ pathJoin D (N ++ codes ".tsx") :=
    fun h => typesSuffix_ne_tsxSuffix N (pathJoin_right_inj D _ _ h)
  have l1 := componentCssExportLine_ne_main N
  have l2 := componentCssExportLine_ne_types N
  have l3 := componentTypesExportLine_ne_main N
  refine ⟨?_, ?_, ?_, ?_, ?_, ?_, ?_⟩
  · by_cases hc : o.createCss <;> by_cases ht : o.createTypes <;>
      simp [componentOutputs, hIdx, hc, ht]
  · by_cases hc : o.createCss <;> by_cases ht : o.createTypes <;>
      simp [componentIndexContent, componentIndexLines, hc, ht]
  · simp [componentIndexLines]
  · by_cases hc : o.createCss <;> by_cases ht : o.createTypes <;>
      simp [componentOutputs, filePaths, hIdx, hc, ht]
  · by_cases hc : o.createCss <;> by_cases ht : o.createTypes <;>
      simp [componentOutputs, componentIndexLines, filePaths, hIdx, hc, ht, l1, l2, l3,
        p1, p2, p3]
  · have l2s : componentTypesExportLine N ≠ componentCssExportLine N := fun h => l2 h.symm
    have p2s : pathJoin D (N ++ codes ".types.ts") ≠ pathJoin D (N ++ codes ".module.css") :=
      fun h => p2 h.symm
    by_cases hc : o.createCss <;> by_cases ht : o.createTypes <;>
      simp [componentOutputs, componentIndexLines, filePaths, hIdx, hc, ht, l1, l2s, l3,
        p4, p5, p2s]
  · intro l hl
    by_cases hc : o.createCss <;> by_cases ht : o.createTypes <;>
      simp [componentIndexLines, hc, ht] at hl <;> tauto

theorem context_barrel_consistency (DN D : List Nat) (o : Options)
    (hIdx : o.createIndex = true) (B : List Nat) :
    Output.file (pathJoin D (codes "index.ts")) (contextIndexContent DN o)
        ∈ contextOutputs D B DN o ∧
    contextIndexContent DN o = (contextIndexLines DN o).flatten ∧
    contextMainExportLine DN ∈ contextIndexLines DN o ∧
    pathJoin D (DN ++ codes ".tsx") ∈ filePaths (contextOutputs D B DN o) ∧
    (contextTypesExportLine DN ∈ contextIndexLines DN o ↔
      pathJoin D (DN ++ codes ".types.ts") ∈ filePaths (contextOutputs D B DN o)) ∧
    (∀ l ∈ contextIndexLines DN o,
      l = contextMainExportLine DN ∨ l = contextTypesExportLine DN) := by
  have p4 : pathJoin D (DN ++ codes ".types.ts") ≠ pathJoin D (codes "index.ts") :=
    fun h => typesSuffix_ne_index DN (pathJoin_right_inj D _ _ h)
  have p5 : pathJoin D (DN ++ codes ".types.ts") ≠ pathJoin D (DN ++ codes ".tsx") :=
    fun h => typesSuffix_ne_tsxSuffix DN (pathJoin_right_inj D _ _ h)
  have l1 : contextTypesExportLine DN ≠ contextMainExportLine DN :=
    starTypesExportLine_ne_main DN
  refine ⟨?_, ?_, ?_, ?_, ?_, ?_⟩
  · by_cases ht : o.createTypes <;> simp [contextOutputs, hIdx, ht]
  · by_cases ht : o.createTypes <;> simp [contextIndexContent, contextIndexLines, ht]
  · simp [contextIndexLines]
  · by_cases ht : o.createTypes <;> simp [contextOutputs, filePaths, hIdx, ht]
  · by_cases ht : o.createTypes <;>
      simp [contextOutputs, contextIndexLines, filePaths, hIdx, ht, l1, p4, p5]
  · intro l hl
    by_cases ht : o.createTypes <;> simp [contextIndexLines, ht] at hl <;> tauto

theorem hook_barrel_consistency (H D : List Nat) (o : Options)
    (hIdx : o.createIndex = true) :
    Output.file (pathJoin D (codes "index.ts")) (hookIndexContent H o)
        ∈ hookOutputs D H o ∧
    hookIndexContent H o = (hookIndexLines H o).flatten ∧
    hookMainExportLine H ∈ hookIndexLines H o ∧
    pathJoin D (H ++ codes ".ts") ∈ filePaths (hookOutputs D H o) ∧
    (hookTypesExportLine H ∈ hookIndexLines H o ↔
      pathJoin D (H ++ codes ".types.ts") ∈ filePaths (hookOutputs D H o)) ∧
    (∀ l ∈ hookIndexLines H o,
      l = hookMainExportLine H ∨ l = hookTypesExportLine H) := by
  have p4 : pathJoin D (H ++ codes ".types.ts") ≠ pathJoin D (codes "index.ts") :=
    fun h => typesSuffix_ne_index H (pathJoin_right_inj D _ _ h)
  have p5 : pathJoin D (H ++ codes ".types.ts") ≠ pathJoin D (H ++ codes ".ts") :=
    fun h => typesSuffix_ne_tsSuffix H (pathJoin_right_inj D _ _ h)
  have l1 : hookTypesExportLine H ≠ hookMainExportLine H :=
    starTypesExportLine_ne_main H
  refine ⟨?_, ?_, ?_, ?_, ?_, ?_⟩
  · by_cases ht : o.createTypes <;> simp [hookOutputs, hIdx, ht]
  · by_cases ht : o.createTypes <;> simp [hookIndexContent, hookIndexLines, ht]
  · simp [hookIndexLines]
  · by_cases ht : o.createTypes <;> simp [hookOutputs, filePaths, hIdx, ht]
  · by_cases ht : o.createTypes <;>
      simp [hookOutputs, hookIndexLines, filePaths, hIdx, ht, l1, p4, p5]
  · intro l hl
    by_cases ht : o.createTypes <;> simp [hookIndexLines, ht] at hl <;> tauto

/-- C1: for every artifact kind and every file selection, a generated
barrel file re-exports exactly the set of sibling files generated in
the same plan: it is assembled from known re-export lines only; the
main-source re-export is always present, the stylesheet export line is
present iff the stylesheet file is among the generated files, and the
types re-export line is present iff the types file is among the
generated files. -/
theorem claim_C1_barrel_references_exactly_generated_files :
    (∀ (n : List Nat) (d? : Option (List Nat)) (o : Options) (fs : Fs) (outs : List Output),
      generateComponent (some n) d? o fs = .generated outs → o.createIndex = true →
      Output.file (pathJoin (targetDir .component n d?) (codes "index.ts"))
          (componentIndexContent (kebabToPascalCase n) o) ∈ outs ∧
      componentIndexContent (kebabToPascalCase n) o =
        (componentIndexLines (kebabToPascalCase n) o).flatten ∧
      componentMainExportLine (kebabToPascalCase n) ∈
        componentIndexLines (kebabToPascalCase n) o ∧
      pathJoin (targetDir .component n d?) (kebabToPascalCase n ++ codes ".tsx") ∈
        filePaths outs ∧
      (componentCssExportLine (kebabToPascalCase n) ∈
          componentIndexLines (kebabToPascalCase n) o ↔
        pathJoin (targetDir .component n d?) (kebabToPascalCase n ++ codes ".module.css") ∈
          filePaths outs) ∧
      (componentTypesExportLine (kebabToPascalCase n) ∈
          componentIndexLines (kebabToPascalCase n) o ↔
        pathJoin (targetDir .component n d?) (kebabToPascalCase n ++ codes ".types.ts") ∈
          filePaths outs) ∧
      (∀ l ∈ componentIndexLines (kebabToPascalCase n) o,
        l = componentMainExportLine (kebabToPascalCase n) ∨
          l = componentCssExportLine (kebabToPascalCase n) ∨
          l = componentTypesExportLine (kebabToPascalCase n))) ∧
    (∀ (n : List Nat) (d? : Option (List Nat)) (o : Options) (fs : Fs) (outs : List Output),
      generateContext (some n) d? o fs = .generated outs → o.createIndex = true →
      Output.file (pathJoin (targetDir .context n d?) (codes "index.ts"))
          (contextIndexContent (kebabToPascalCase n ++ codes "Context") o) ∈ outs ∧
      contextIndexContent (kebabToPascalCase n ++ codes "Context") o =
        (contextIndexLines (kebabToPascalCase n ++ codes "Context") o).flatten ∧
      contextMainExportLine (kebabToPascalCase n ++ codes "Context") ∈
        contextIndexLines (kebabToPascalCase n ++ codes "Context") o ∧
      pathJoin (targetDir .context n d?)
          (kebabToPascalCase n ++ codes "Context" ++ codes ".tsx") ∈ filePaths outs ∧
      (contextTypesExportLine (kebabToPascalCase n ++ codes "Context") ∈
          contextIndexLines (kebabToPascalCase n ++ codes "Context") o ↔
        pathJoin (targetDir .context n d?)
            (kebabToPascalCase n ++ codes "Context" ++ codes ".types.ts") ∈
          filePaths outs) ∧
      (∀ l ∈ contextIndexLines (kebabToPascalCase n ++ codes "Context") o,
        l = contextMainExportLine (kebabToPascalCase n ++ codes "Context") ∨
          l = contextTypesExportLine (kebabToPascalCase n ++ codes "Context"))) ∧
    (∀ (n : List Nat) (d? : Option (List Nat)) (o : Options) (fs : Fs) (outs : List Output),
      generateHook (some n) d? o fs = .generated outs → o.createIndex = true →
      Output.file (pathJoin (targetDir .hook n d?) (codes "index.ts"))
          (hookIndexContent (hookName n) o) ∈ outs ∧
      hookIndexContent (hookName n) o = (hookIndexLines (hookName n) o).flatten ∧
      hookMainExportLine (hookName n) ∈ hookIndexLines (hookName n) o ∧
      pathJoin (targetDir .hook n d?) (hookName n ++ codes ".ts") ∈ filePaths outs ∧
      (hookTypesExportLine (hookName n) ∈ hookIndexLines (hookName n) o ↔
        pathJoin (targetDir .hook n d?) (hookName n ++ codes ".types.ts") ∈
          filePaths outs) ∧
      (∀ l ∈ hookIndexLines (hookName n) o,
        l = hookMainExportLine (hookName n) ∨ l = hookTypesExportLine (hookName n))) := by
  refine ⟨fun n d? o fs outs h hIdx => ?_, fun n d? o fs outs h hIdx => ?_,
    fun n d? o fs outs h hIdx => ?_⟩
  · have e := generateComponent_generated n d? o fs outs h
    subst e
    exact component_barrel_consistency (kebabToPascalCase n) (targetDir .component n d?) o hIdx
  · have e := generateContext_generated n d? o fs outs h
    subst e
    exact context_barrel_consistency (kebabToPascalCase n ++ codes "Context")
      (targetDir .context n d?) o hIdx (kebabToPascalCase n)
  · have e := generateHook_generated n d? o fs outs h
    subst e
    exact hook_barrel_consistency (hookName n) (targetDir .hook n d?) o hIdx

/-- C1 witness: the barrel-consistency theorem applied to a concrete
successful component run with every optional file selected. -/
theorem claim_C1_barrel_witness :
    componentMainExportLine (kebabToPascalCase (codes "foo")) ∈
      componentIndexLines (kebabToPascalCase (codes "foo")) ⟨true, true, true⟩ ∧
    (componentCssExportLine (kebabToPascalCase (codes "foo")) ∈
        componentIndexLines (kebabToPascalCase (codes "foo")) ⟨true, true, true⟩ ↔
      pathJoin (targetDir .component (codes "foo") none)
          (kebabToPascalCase (codes "foo") ++ codes ".module.css") ∈
        filePaths (componentOutputs (pathJoin (codes "./src/components") (codes "Foo"))
          (codes "Foo") ⟨true, true, true⟩)) := by
  have h := claim_C1_barrel_references_exactly_generated_files.1 (codes "foo") none
    ⟨true, true, true⟩ emptyFs
    (componentOutputs (pathJoin (codes "./src/components") (codes "Foo")) (codes "Foo")
      ⟨true, true, true⟩) (by decide) rfl
  exact ⟨h.2.2.1, h.2.2.2.2.1⟩

/- ### C4: component with neither stylesheet nor types -/

theorem componentTsxContent_bare (b : Bool) (N : List Nat) :
    componentTsxContent N ⟨false, false, b⟩ =
      codes "import React from \x27react\x27;\n\nconst " ++ N ++
        codes ": React.FC<\x7b\x7d> = () => \x7b\n  return (\n    <div >\n      <h1>" ++ N ++
        codes "</h1>\n    </div>\n  );\n\x7d;\n\nexport default " ++ N ++ codes ";\n" := by
  simp only [componentTsxContent,
    (by decide : codes "import React from \x27react\x27;\n\nconst " =
      codes "import React from \x27react\x27;\n" ++ codes "\nconst "),
    (by decide :
      codes ": React.FC<\x7b\x7d> = () => \x7b\n  return (\n    <div >\n      <h1>" =
        codes ": React.FC<" ++ codes "\x7b\x7d" ++ codes "> = (" ++
          codes ") => \x7b\n  return (\n    <div " ++ codes ">\n      <h1>")]
  simp [List.append_assoc]

/-- C4: invoked with both `--no-css` and `--no-types`, the component
generator creates exactly the directory, `index.ts` when the index is
selected, and the main PascalName .tsx file; the text of the main file
contains no stylesheet import and no types import and declares the
props type inline as the empty structural type `\x7b\x7d`
(concretely: no `import styles`, no `import type`, no `.module.css`
and no `.types` fragment, and `React.FC<\x7b\x7d>` present). -/
theorem claim_C4_component_no_css_no_types :
    (∀ (n : List Nat) (d? : Option (List Nat)) (b : Bool) (fs : Fs) (outs : List Output),
      generateComponent (some n) d? ⟨false, false, b⟩ fs = .generated outs →
      outs.map outputPath =
        [targetDir .component n d?]
          ++ (if b then [pathJoin (targetDir .component n d?) (codes "index.ts")] else [])
          ++ [pathJoin (targetDir .component n d?) (kebabToPascalCase n ++ codes ".tsx")] ∧
      Output.file (pathJoin (targetDir .component n d?) (kebabToPascalCase n ++ codes ".tsx"))
          (componentTsxContent (kebabToPascalCase n) ⟨false, false, b⟩) ∈ outs ∧
      componentTsxContent (kebabToPascalCase n) ⟨false, false, b⟩ =
        codes "import React from \x27react\x27;\n\nconst " ++ kebabToPascalCase n ++
          codes ": React.FC<\x7b\x7d> = () => \x7b\n  return (\n    <div >\n      <h1>" ++
          kebabToPascalCase n ++
          codes "</h1>\n    </div>\n  );\n\x7d;\n\nexport default " ++ kebabToPascalCase n ++
          codes ";\n") ∧
    containsSub (codes "import styles")
      (componentTsxContent (codes "FooBar") ⟨false, false, true⟩) = false ∧
    containsSub (codes "import type")
      (componentTsxContent (codes "FooBar") ⟨false, false, true⟩) = false ∧
    containsSub (codes ".module.css")
      (componentTsxContent (codes "FooBar") ⟨false, false, true⟩) = false ∧
    containsSub (codes ".types")
      (componentTsxContent (codes "FooBar") ⟨false, false, true⟩) = false ∧
    containsSub (codes "React.FC<\x7b\x7d>")
      (componentTsxContent (codes "FooBar") ⟨false, false, true⟩) = true := by
  refine ⟨fun n d? b fs outs h => ?_, by decide, by decide, by decide, by decide, by decide⟩
  have e := generateComponent_generated n d? ⟨false, false, b⟩ fs outs h
  subst e
  refine ⟨?_, ?_, componentTsxContent_bare b (kebabToPascalCase n)⟩
  · rw [componentOutputs_paths]
    cases b <;> simp [targetDir, artifactDirName, defaultDirOf]
  · cases b <;> simp [componentOutputs, targetDir, artifactDirName, defaultDirOf]

/-- C4 witness: the theorem applied to a concrete run. -/
theorem claim_C4_witness :
    (componentOutputs (pathJoin (codes "./src/components") (codes "Foo")) (codes "Foo")
        ⟨false, false, true⟩).map outputPath =
      [targetDir .component (codes "foo") none]
        ++ (if true then
              [pathJoin (targetDir .component (codes "foo") none) (codes "index.ts")]
            else [])
        ++ [pathJoin (targetDir .component (codes "foo") none)
              (kebabToPascalCase (codes "foo") ++ codes ".tsx")] := by
  have h := claim_C4_component_no_css_no_types.1 (codes "foo") none true emptyFs
    (componentOutputs (pathJoin (codes "./src/components") (codes "Foo")) (codes "Foo")
      ⟨false, false, true⟩) (by decide)
  exact h.1

/- ### CLI parsing lemmas -/

theorem contains_eq_false_of_not_mem (fl : List (List Nat)) (x : List Nat) (hx : x ∉ fl) :
    fl.contains x = false := by
  rw [Bool.eq_false_iff]
  intro hc
  obtain ⟨a, ha, he⟩ := List.contains_iff_exists_mem_beq.mp hc
  exact hx (by rw [eq_of_beq he]; exact ha)

theorem contains_append_of_not_mem (l fl : List (List Nat)) (x : List Nat) (hx : x ∉ fl) :
    (l ++ fl).contains x = l.contains x := by
  induction l with
  | nil => simpa using contains_eq_false_of_not_mem fl x hx
  | cons a l ih => simp [ih, hx]

theorem genFlags_append (xs ys : List (List Nat)) :
    genFlags (xs ++ ys) = genFlags xs ++ genFlags ys := by
  simp [genFlags, List.filter_append]

theorem genPositional_append (xs ys : List (List Nat)) :
    genPositional (xs ++ ys) = genPositional xs ++ genPositional ys := by
  simp [genPositional, List.filter_append]

theorem genFlags_of_all_flags (fl : List (List Nat))
    (h : ∀ f ∈ fl, startsWithDashDash f = true) : genFlags fl = fl := by
  induction fl with
  | nil => rfl
  | cons a l ih =>
    simp only [genFlags] at ih ⊢
    rw [List.filter_cons, if_pos (h a (List.mem_cons_self a l)),
      ih (fun f hf => h f (List.mem_cons_of_mem a hf))]

theorem genPositional_of_all_flags (fl : List (List Nat))
    (h : ∀ f ∈ fl, startsWithDashDash f = true) : genPositional fl = [] := by
  induction fl with
  | nil => rfl
  | cons a l ih =>
    simp only [genPositional] at ih ⊢
    rw [List.filter_cons, if_neg (by simp [h a (List.mem_cons_self a l)]),
      ih (fun f hf => h f (List.mem_cons_of_mem a hf))]

theorem parseOptions_no_all (pre : List (List Nat)) :
    parseOptions (pre ++ [codes "--no-all"]) = ⟨false, false, false⟩ := by
  have hna : (pre ++ [codes "--no-all"]).contains (codes "--no-all") = true :=
    List.contains_iff_exists_mem_beq.mpr ⟨codes "--no-all", by simp, by simp⟩
  simp [parseOptions, hna]

theorem parseOptions_three (pre : List (List Nat)) :
    parseOptions (pre ++
        [codes "--no-types", codes "--no-css", codes "--no-index"]) =
      ⟨false, false, false⟩ := by
  have h1 : (pre ++ [codes "--no-types", codes "--no-css", codes "--no-index"]).contains
      (codes "--no-types") = true :=
    List.contains_iff_exists_mem_beq.mpr ⟨codes "--no-types", by simp, by simp⟩
  have h2 : (pre ++ [codes "--no-types", codes "--no-css", codes "--no-index"]).contains
      (codes "--no-css") = true :=
    List.contains_iff_exists_mem_beq.mpr ⟨codes "--no-css", by simp, by simp⟩
  have h3 : (pre ++ [codes "--no-types", codes "--no-css", codes "--no-index"]).contains
      (codes "--no-index") = true :=
    List.contains_iff_exists_mem_beq.mpr ⟨codes "--no-index", by simp, by simp⟩
  simp [parseOptions, h1, h2, h3]

theorem parseOptions_ignored (pre : List (List Nat)) (extra : List Nat)
    (h1 : extra ≠ codes "--no-types") (h2 : extra ≠ codes "--no-css")
    (h3 : extra ≠ codes "--no-index") (h4 : extra ≠ codes "--no-all") :
    parseOptions (pre ++ [extra]) = parseOptions pre := by
  simp only [parseOptions,
    contains_append_of_not_mem pre [extra] (codes "--no-types")
      (fun hm => h1 (List.mem_singleton.mp hm).symm),
    contains_append_of_not_mem pre [extra] (codes "--no-css")
      (fun hm => h2 (List.mem_singleton.mp hm).symm),
    contains_append_of_not_mem pre [extra] (codes "--no-index")
      (fun hm => h3 (List.mem_singleton.mp hm).symm),
    contains_append_of_not_mem pre [extra] (codes "--no-all")
      (fun hm => h4 (List.mem_singleton.mp hm).symm)]

/-- The outcome of the dispatcher depends on trailing flag tokens only
through the resolved options, provided the trailing tokens all start
with `--` and none is a help token. -/
theorem mainRun_flags_congr (t : List Nat) (mid fl₁ fl₂ : List (List Nat)) (fs : Fs)
    (h1 : ∀ f ∈ fl₁, startsWithDashDash f = true)
    (h2 : ∀ f ∈ fl₂, startsWithDashDash f = true)
    (hh1 : codes "-h" ∉ fl₁) (hp1 : codes "--help" ∉ fl₁)
    (hh2 : codes "-h" ∉ fl₂) (hp2 : codes "--help" ∉ fl₂)
    (hopt : parseOptions (genFlags mid ++ fl₁) = parseOptions (genFlags mid ++ fl₂)) :
    mainRun ((codes "gen" :: t :: mid) ++ fl₁) fs =
      mainRun ((codes "gen" :: t :: mid) ++ fl₂) fs := by
  simp only [mainRun, List.cons_append, List.contains_cons,
    contains_append_of_not_mem mid fl₁ (codes "-h") hh1,
    contains_append_of_not_mem mid fl₂ (codes "-h") hh2,
    contains_append_of_not_mem mid fl₁ (codes "--help") hp1,
    contains_append_of_not_mem mid fl₂ (codes "--help") hp2,
    List.head?_cons, List.getElem?_cons_succ, List.getElem?_cons_zero,
    List.drop_succ_cons, List.drop_zero,
    genPositional_append, genFlags_append,
    genPositional_of_all_flags fl₁ h1, genPositional_of_all_flags fl₂ h2,
    genFlags_of_all_flags fl₁ h1, genFlags_of_all_flags fl₂ h2,
    List.append_nil, hopt]

/-- C5: for every artifact-kind token, raw name and (optional)
directory, invoking the CLI with `--no-all` produces exactly the same
outcome — same files, same contents, same errors — as invoking it with
`--no-types --no-css --no-index` simultaneously. -/
theorem claim_C5_no_all_equals_three_flags :
    ∀ (t n : List Nat) (d? : Option (List Nat)) (fs : Fs),
      mainRun ([codes "gen", t, n] ++ d?.toList ++ [codes "--no-all"]) fs =
        mainRun ([codes "gen", t, n] ++ d?.toList ++
          [codes "--no-types", codes "--no-css", codes "--no-index"]) fs := by
  intro t n d? fs
  have harg : ∀ suf : List (List Nat),
      [codes "gen", t, n] ++ d?.toList ++ suf =
        (codes "gen" :: t :: ([n] ++ d?.toList)) ++ suf := by
    cases d? <;> simp
  rw [harg, harg]
  exact mainRun_flags_congr t ([n] ++ d?.toList) _ _ fs
    (by decide) (by decide) (by decide) (by decide) (by decide) (by decide)
    (by rw [parseOptions_no_all, parseOptions_three])

/-- C9: every token after the type token that begins with `--` is
classified as a flag and never becomes the name or directory
positional (no positional ever starts with `--`), and appending a
`--`-prefixed token that is none of the recognized flags
(`--no-types`, `--no-css`, `--no-index`, `--no-all`, `--help`) leaves
the outcome of the run entirely unchanged. -/
theorem claim_C9_dashdash_never_positional_unknown_flag_ignored :
    (∀ (rest : List (List Nat)) (x : List Nat),
      x ∈ genPositional rest → startsWithDashDash x = false) ∧
    (∀ (t : List Nat) (rest : List (List Nat)) (extra : List Nat) (fs : Fs),
      startsWithDashDash extra = true →
      extra ≠ codes "--no-types" → extra ≠ codes "--no-css" →
      extra ≠ codes "--no-index" → extra ≠ codes "--no-all" → extra ≠ codes "--help" →
      mainRun ((codes "gen" :: t :: rest) ++ [extra]) fs =
        mainRun (codes "gen" :: t :: rest) fs) := by
  constructor
  · intro rest x hx
    rw [genPositional] at hx
    have h := List.mem_filter.mp hx
    simpa using h.2
  · intro t rest extra fs hsw h1 h2 h3 h4 h5
    have hne_h : extra ≠ codes "-h" := by
      intro e
      rw [e] at hsw
      exact absurd hsw (by decide)
    have h := mainRun_flags_congr t rest [extra] [] fs
      (fun f hf => by rw [List.mem_singleton.mp hf]; exact hsw)
      (fun f hf => absurd hf (List.not_mem_nil f))
      (fun hm => hne_h (List.mem_singleton.mp hm).symm)
      (fun hm => h5 (List.mem_singleton.mp hm).symm)
      (List.not_mem_nil _) (List.not_mem_nil _)
      (by rw [List.append_nil]; exact parseOptions_ignored _ extra h1 h2 h3 h4)
    rwa [List.append_nil] at h

/-- C9 witness: appending the unrecognized flag `--bogus` to a
concrete invocation leaves the outcome unchanged. -/
theorem claim_C9_witness :
    mainRun ((codes "gen" :: codes "component" :: [codes "foo"]) ++ [codes "--bogus"])
        emptyFs =
      mainRun (codes "gen" :: codes "component" :: [codes "foo"]) emptyFs :=
  claim_C9_dashdash_never_positional_unknown_flag_ignored.2 (codes "component")
    [codes "foo"] (codes "--bogus") emptyFs
    (by decide) (by decide) (by decide) (by decide) (by decide) (by decide)

/- ### Filesystem lemmas and error-path behavior -/

theorem applyOutput_preserves (fs : Fs) (o : Output) (p : List Nat)
    (h : (fs p).isSome = true) : ((applyOutput fs o) p).isSome = true := by
  cases o <;> simp only [applyOutput] <;> split <;> simp [h]

theorem foldl_applyOutput_preserves (outs : List Output) (fs : Fs) (p : List Nat)
    (h : (fs p).isSome = true) : ((outs.foldl applyOutput fs) p).isSome = true := by
  induction outs generalizing fs with
  | nil => exact h
  | cons o rest ih => exact ih _ (applyOutput_preserves fs o p h)

theorem applyRun_dir_head (fs : Fs) (D : List Nat) (rest : List Output) :
    ((applyRun fs (.generated (Output.dir D :: rest))) D).isSome = true := by
  simp only [applyRun, List.foldl_cons]
  exact foldl_applyOutput_preserves rest _ D (by simp [applyOutput])

/-- Shared: an existing target directory makes every generator fail
with `alreadyExists` (given a non-empty name). -/
theorem generatorOf_alreadyExists (k : ArtifactKind) (n : List Nat) (d? : Option (List Nat))
    (o : Options) (fs : Fs) (hne : n ≠ [])
    (hex : (fs (targetDir k n d?)).isSome = true) :
    generatorOf k (some n) d? o fs = .alreadyExists (targetDir k n d?) := by
  cases k <;>
    (simp only [targetDir, artifactDirName, defaultDirOf] at hex;
     simp [generatorOf, generateComponent, generateContext, generateHook, hne, hex,
       targetDir, artifactDirName, defaultDirOf])

/-- C6: for every artifact kind, if the target directory already
exists the run fails with the already-exists error, exit code 1, and
performs no write at all (the filesystem, including every file written
by an earlier invocation, is left byte-for-byte unchanged); in
particular a second invocation with the same raw name and directory
always fails this way. -/
theorem claim_C6_existing_target_fails_without_writes :
    (∀ (k : ArtifactKind) (n : List Nat) (d? : Option (List Nat)) (o : Options) (fs : Fs),
      n ≠ [] → (fs (targetDir k n d?)).isSome = true →
      generatorOf k (some n) d? o fs = .alreadyExists (targetDir k n d?) ∧
      applyRun fs (generatorOf k (some n) d? o fs) = fs ∧
      exitCode (generatorOf k (some n) d? o fs) = 1) ∧
    (∀ (k : ArtifactKind) (n : List Nat) (d? : Option (List Nat)) (o o' : Options)
      (fs : Fs) (outs : List Output),
      generatorOf k (some n) d? o fs = .generated outs →
      generatorOf k (some n) d? o' (applyRun fs (.generated outs)) =
        .alreadyExists (targetDir k n d?)) := by
  constructor
  · intro k n d? o fs hne hex
    have hgen := generatorOf_alreadyExists k n d? o fs hne hex
    rw [hgen]
    exact ⟨rfl, rfl, rfl⟩
  · intro k n d? o o' fs outs h
    have hne : n ≠ [] := by
      intro e
      subst e
      cases k <;>
        simp [generatorOf, generateComponent, generateContext, generateHook] at h
    have hdir : ((applyRun fs (.generated outs)) (targetDir k n d?)).isSome = true := by
      cases k
      case component =>
        rw [generateComponent_generated n d? o fs outs h]
        exact applyRun_dir_head fs _ _
      case context =>
        rw [generateContext_generated n d? o fs outs h]
        exact applyRun_dir_head fs _ _
      case hook =>
        rw [generateHook_generated n d? o fs outs h]
        exact applyRun_dir_head fs _ _
    exact generatorOf_alreadyExists k n d? o' _ hne hdir

/-- C6 witness: a concrete component run against a filesystem where
the target directory already exists. -/
theorem claim_C6_witness :
    generatorOf .component (some (codes "foo")) none ⟨true, true, true⟩
        (fun p => if p = codes "./src/components/Foo" then some .directory else none) =
      .alreadyExists (targetDir .component (codes "foo") none) :=
  (claim_C6_existing_target_fails_without_writes.1 .component (codes "foo") none
    ⟨true, true, true⟩
    (fun p => if p = codes "./src/components/Foo" then some .directory else none)
    (by decide) (by decide)).1

/-- C7: for every artifact kind, a missing or empty raw name makes the
run fail as a usage error with exit code 1, with no filesystem access
at all: the outcome is the same on every filesystem and nothing is
written; the dispatcher behaves the same when no positional name
follows the type token. -/
theorem claim_C7_missing_name_usage_error_before_fs :
    (∀ (k : ArtifactKind) (n? : Option (List Nat)) (d? : Option (List Nat)) (o : Options)
      (fs : Fs), n?.getD [] = [] →
      generatorOf k n? d? o fs = .usageError ∧
      exitCode (generatorOf k n? d? o fs) = 1 ∧
      (∀ fs' : Fs, generatorOf k n? d? o fs' = generatorOf k n? d? o fs) ∧
      applyRun fs (generatorOf k n? d? o fs) = fs) ∧
    (∀ fs : Fs, mainRun [codes "gen", codes "component"] fs = .usageError) ∧
    (∀ fs : Fs, mainRun [codes "gen", codes "context"] fs = .usageError) ∧
    (∀ fs : Fs, mainRun [codes "gen", codes "hook"] fs = .usageError) := by
  refine ⟨?_, fun fs => rfl, fun fs => rfl, fun fs => rfl⟩
  intro k n? d? o fs hn
  have hg : ∀ fs' : Fs, generatorOf k n? d? o fs' = .usageError := by
    intro fs'
    cases k <;>
      simp [generatorOf, generateComponent, generateContext, generateHook, hn]
  refine ⟨hg fs, ?_, fun fs' => by rw [hg fs', hg fs], ?_⟩
  · rw [hg fs]
    rfl
  · rw [hg fs]
    rfl

/-- C7 witness: the missing-name theorem applied to a concrete hook
invocation with no name argument. -/
theorem claim_C7_witness :
    generatorOf .hook none none ⟨true, true, true⟩ emptyFs = .usageError ∧
    exitCode (generatorOf .hook none none ⟨true, true, true⟩ emptyFs) = 1 :=
  ⟨(claim_C7_missing_name_usage_error_before_fs.1 .hook none none ⟨true, true, true⟩
      emptyFs rfl).1,
   (claim_C7_missing_name_usage_error_before_fs.1 .hook none none ⟨true, true, true⟩
      emptyFs rfl).2.1⟩

/-- C8 witness: idempotence and hyphen-freeness at a concrete name. -/
theorem claim_C8_witness :
    kebabToPascalCase (kebabToPascalCase (codes "foo-bar")) =
        kebabToPascalCase (codes "foo-bar") ∧
    45 ∉ kebabToPascalCase (codes "foo-bar") :=
  ⟨claim_C8_pascal_idempotent_and_case_normalizing.1 (codes "foo-bar"),
   claim_C8_pascal_idempotent_and_case_normalizing.2.1 (codes "foo-bar")⟩

/-- C10 witness: the empty-segment equation at a concrete name. -/
theorem claim_C10_witness :
    kebabToPascalCase (codes "a--b") =
      (((splitOnDash (codes "a--b")).filter (fun w => !w.isEmpty)).map
        capitalizeWord).flatten :=
  claim_C10_pascal_total_empty_segments_vanish.1 (codes "a--b")

/-- C3 witness: the hook-name derivation at the concrete raw name. -/
theorem claim_C3_witness : hookName (codes "use-toggle") = codes "useToggle" :=
  claim_C3_hook_use_dash_stripping.1

/-- C5 witness: the `--no-all` equivalence at a concrete invocation. -/
theorem claim_C5_witness :
    mainRun ([codes "gen", codes "component", codes "foo"] ++
        (none : Option (List Nat)).toList ++ [codes "--no-all"]) emptyFs =
      mainRun ([codes "gen", codes "component", codes "foo"] ++
        (none : Option (List Nat)).toList ++
        [codes "--no-types", codes "--no-css", codes "--no-index"]) emptyFs :=
  claim_C5_no_all_equals_three_flags (codes "component") (codes "foo") none emptyFs

end Recomp
